import Mathlib

/-!
Verification of the topo-slicer progressive elevation sampler.

Shallow embedding of:
  * src/utils/geo.ts      (haversine-parametric geodesic math)
  * src/utils/api.ts      (elevation client)
  * src/hooks/useElevationData.ts  (progressive sampler / fetchForLine)

Numbers: lat/lng/elevation are modelled as rationals; distances, which the
source always stores through `Math.round`, as integers.  The haversine
distance itself is transcendental, so every function that consumes it is
parametrised by a distance function `dist : Coordinate → Coordinate → ℚ`;
the claims under scrutiny only depend on non-negativity of distances, never
on the trigonometric values.  JavaScript `Math.round` agrees with Mathlib's
`round` (`⌊x + 1/2⌋`, half away from zero towards +∞) on all inputs the
model produces.

The asynchronous control flow of `fetchForLine` is embedded as a trace
semantics: a session run is a list of observable events (state setter calls,
network requests, the inter-round delay await, the deferred progress reset),
each tagged with the value of the cancellation flag at the moment it is
emitted.  Cancellation (the `reset()` path, which sets `isCancelledRef` and
aborts the controller together) is modelled by the index of the suspension
point during which it was requested; between suspension points execution is
synchronous, so the flag can only change across an await.
-/

namespace TopoSlicer

/-- Model of `Coordinate` from src/types/index.ts: `{ lat: number; lng: number }`. -/
structure Coordinate where
  lat : ℚ
  lng : ℚ
deriving DecidableEq, Repr, Inhabited

/-- Model of `ElevationPoint` from src/types/index.ts:
`{ distance: number; elevation: number | null; lat: number; lng: number }`.
All distances the program stores pass through `Math.round`, hence `ℤ`. -/
structure ElevationPoint where
  lat : ℚ
  lng : ℚ
  distance : ℤ
  elevation : Option ℚ
deriving DecidableEq, Repr, Inhabited

/-! ## src/utils/geo.ts -/

/-- Embedding of `interpolatePoints(start, end, numPoints)` (geo.ts:34-50): the loop
`for (i = 0; i <= numPoints; i++)` with `t = i / numPoints` and linear
interpolation in lat/lng space. -/
def interpolatePoints (start finish : Coordinate) (numPoints : ℕ) : List Coordinate :=
  (List.range (numPoints + 1)).map fun (i : ℕ) =>
    let t : ℚ := (i : ℚ) / (numPoints : ℚ)
    { lat := start.lat + (finish.lat - start.lat) * t
      lng := start.lng + (finish.lng - start.lng) * t }

/-- The loop body of `calculateCumulativeDistances` (geo.ts:60-67):
accumulates the raw distance and pushes `Math.round(cumulative)` for each
consecutive pair. -/
def cumulativeLoop (dist : Coordinate → Coordinate → ℚ) :
    Coordinate → List Coordinate → ℚ → List ℤ
  | _, [], _ => []
  | prev, curr :: rest, cumulative =>
    let cumulative2 := cumulative + dist prev curr
    round cumulative2 :: cumulativeLoop dist curr rest cumulative2

/-- Embedding of `calculateCumulativeDistances(coords)` (geo.ts:56-70): the array is
initialised to `[0]` before the loop, so the empty input yields `[0]`. -/
def calculateCumulativeDistances (dist : Coordinate → Coordinate → ℚ)
    (coords : List Coordinate) : List ℤ :=
  match coords with
  | [] => [0]
  | c :: rest => 0 :: cumulativeLoop dist c rest 0

/-- Embedding of `interpolatePolyline(vertices, totalSamples)` (geo.ts:76-125).
Mirrors the source exactly: proportional `max(1, round(...))` sample
allocation, `endIdx` cutting the last point of non-final segments, and the
`j === 0 && i > 0` skip of each non-first segment's first point. -/
def interpolatePolyline (dist : Coordinate → Coordinate → ℚ)
    (vertices : List Coordinate) (totalSamples : ℕ) : List Coordinate :=
  if vertices.length < 2 then vertices
  else if vertices.length = 2 then
    interpolatePoints (vertices.getD 0 default) (vertices.getD 1 default) totalSamples
  else
    let segmentLengths := (vertices.zip vertices.tail).map fun ab => dist ab.1 ab.2
    let totalLength := segmentLengths.sum
    let n := vertices.length - 1
    ((List.range n).map fun i =>
      let start := vertices.getD i default
      let finish := vertices.getD (i + 1) default
      let segmentLength := segmentLengths.getD i 0
      let segmentSamples := max 1 (round (segmentLength / totalLength * (totalSamples : ℚ))).toNat
      let isLastSegment := decide (i = n - 1)
      let segmentPoints := interpolatePoints start finish segmentSamples
      let endIdx := if isLastSegment then segmentPoints.length else segmentPoints.length - 1
      let startIdx := if 0 < i then 1 else 0
      (segmentPoints.take endIdx).drop startIdx).flatten

/-! ## src/utils/api.ts -/

/-- One entry of the OpenTopoData `results` array (api.ts:25-35). -/
structure OpenTopoResult where
  elevation : Option ℚ
  locLat : ℚ
  locLng : ℚ
deriving DecidableEq, Repr

/-- Model of `OpenTopoDataResponse` (api.ts:25-35). -/
structure OpenTopoDataResponse where
  results : List OpenTopoResult
  status : String
  apiError : Option String
deriving DecidableEq, Repr

/-- The HTTP outcome seen by `fetchElevations`: a non-2xx transport status
(`!response.ok`) or a decoded JSON body. -/
inductive HttpResponse where
  | httpFailure (statusCode : ℕ)
  | body (data : OpenTopoDataResponse)
deriving DecidableEq, Repr

/-- Model of `ElevationApiError{message, statusCode?}` (api.ts:37-45). -/
structure ElevationApiError where
  message : String
  statusCode : Option ℕ
deriving DecidableEq, Repr

/-- Embedding of `fetchElevations(coords, signal)` (api.ts:51-78), with the network
modelled as the given `resp`.  The first component records whether a
network call was issued (`coords.length === 0` returns `[]` before any
fetch); the second is the value or thrown `ElevationApiError`. -/
def fetchElevationsModel (coords : List Coordinate) (resp : HttpResponse) :
    Bool × Except ElevationApiError (List (Option ℚ)) :=
  if coords.length = 0 then
    (false, Except.ok [])
  else
    match resp with
    | HttpResponse.httpFailure code =>
      (true, Except.error ⟨"Elevation API returned " ++ toString code, some code⟩)
    | HttpResponse.body data =>
      if data.status ≠ "OK" then
        (true, Except.error ⟨data.apiError.getD "Unknown API error", none⟩)
      else
        (true, Except.ok (data.results.map fun r => r.elevation))

/-! ## src/hooks/useElevationData.ts — the progressive sampler -/

/-- Constant `INITIAL_SAMPLES` (useElevationData.ts:16). -/
def INITIAL_SAMPLES : ℕ := 15

/-- Constant `REFINEMENT_ITERATIONS` (useElevationData.ts:17). -/
def REFINEMENT_ITERATIONS : ℕ := 3

/-- The midpoint inserted between two adjacent samples
(useElevationData.ts:87-92): geometric midpoint of the coordinates,
`Math.round` of the arithmetic mean of the rounded distances, elevation
`null`. -/
def midpointOf (current next : ElevationPoint) : ElevationPoint :=
  { lat := (current.lat + next.lat) / 2
    lng := (current.lng + next.lng) / 2
    distance := round (((current.distance : ℚ) + (next.distance : ℚ)) / 2)
    elevation := none }

/-- The midpoint-insertion loop plus final push (useElevationData.ts:79-97):
between every adjacent pair push the pair's head and its midpoint, then push
the last point. -/
def addMidpoints : List ElevationPoint → List ElevationPoint
  | [] => []
  | [p] => [p]
  | p :: q :: rest => p :: midpointOf p q :: addMidpoints (q :: rest)

/-- The filter `refined.filter((p) => p.elevation === null)` (useElevationData.ts:100). -/
def needsElevationOf (refined : List ElevationPoint) : List ElevationPoint :=
  refined.filter fun p => p.elevation.isNone

/-- The in-place elevation merge (useElevationData.ts:109-114): walk the
refined list, assigning the next fetched value (`?? null` when the fetched
list runs out) to each point whose elevation is `null`. -/
def mergeElevations : List ElevationPoint → List (Option ℚ) → List ElevationPoint
  | [], _ => []
  | p :: rest, es =>
    match p.elevation with
    | some _ => p :: mergeElevations rest es
    | none =>
      match es with
      | [] => { p with elevation := none } :: mergeElevations rest []
      | e :: es2 => { p with elevation := e } :: mergeElevations rest es2

/-- One full refinement round (useElevationData.ts:79-117) as a function of
the fetched elevations: insert midpoints, and when any point needs an
elevation merge the fetched values back in. -/
def refineStep (data : List ElevationPoint) (es : List (Option ℚ)) : List ElevationPoint :=
  let refined := addMidpoints data
  if 0 < (needsElevationOf refined).length then mergeElevations refined es else refined

/-- Observable actions of one sampling session: the React state setters,
the network requests (as the list of lat,lng pairs handed to
`fetchElevations`), the inter-round `setTimeout` await, and the deferred
`setProgress(0)` scheduled on completion. -/
inductive Event where
  | fetchCall (request : List (ℚ × ℚ))
  | setData (series : List ElevationPoint)
  | setProgress (percent : ℚ)
  | setError (message : Option String)
  | setLoading (b : Bool)
  | setIsRefining (b : Bool)
  | delayAwait
  | deferredProgressReset
deriving DecidableEq, Repr, Inhabited

/-- An event tagged with the value of the cancellation flag at the moment it
is emitted. -/
abbrev TEvent := Event × Bool

/-- Result of one `fetchElevations` await as seen by `fetchForLine`:
a resolved list, a rejection whose `name` is `'AbortError'`, or any other
rejection carrying a display message. -/
inductive FetchOutcome where
  | ok (elevations : List (Option ℚ))
  | abortRejection
  | failure (message : String)
deriving DecidableEq, Repr

/-- One sampling session's environment: the distance function standing for
`haversineDistance`, the drawn line, the outcome of the initial and of each
round's fetch, and — when `reset()` cancels the session — the index of the
suspension point (0 = initial fetch, then alternately round fetch and
inter-round delay) during which the cancellation was requested. -/
structure Env where
  dist : Coordinate → Coordinate → ℚ
  lineStart : Coordinate
  lineEnd : Coordinate
  initialOutcome : FetchOutcome
  roundOutcome : ℕ → FetchOutcome
  cancelAt : Option ℕ

/-- Whether the cancellation flag reads true once `susCount` suspension
points have completed: `reset()` during suspension `t` is observed by every
check that runs after that suspension resumes. -/
def cancelObserved (cancelAt : Option ℕ) (susCount : ℕ) : Bool :=
  match cancelAt with
  | none => false
  | some t => decide (t < susCount)

/-- The `catch` block (useElevationData.ts:128-148): return silently when
cancelled or when the rejection is an `AbortError`; otherwise publish the
error message, clear the flags and reset progress (lines 144-147, in source
order). -/
def catchTrace (cancelAt : Option ℕ) (susCount : ℕ) (outcome : FetchOutcome) :
    List TEvent :=
  if cancelObserved cancelAt susCount then []
  else
    match outcome with
    | FetchOutcome.abortRejection => []
    | FetchOutcome.failure m =>
      [(Event.setError (some m), false), (Event.setLoading false, false),
       (Event.setIsRefining false, false), (Event.setProgress 0, false)]
    | FetchOutcome.ok _ => []

/-- The refinement loop (useElevationData.ts:75-127), by recursion on the
remaining iterations; `iter` is the source loop counter and `susCount` the
number of suspension points completed so far.  The base case is the code
after the loop (lines 125-127), which runs with no cancellation check. -/
def runRounds (env : Env) : ℕ → ℕ → ℕ → List ElevationPoint → List TEvent
  | 0, _, susCount, _ =>
    let c := cancelObserved env.cancelAt susCount
    [(Event.setIsRefining false, c), (Event.setLoading false, c),
     (Event.deferredProgressReset, c)]
  | remaining + 1, iter, susCount, elevationData =>
    if cancelObserved env.cancelAt susCount then []
    else
      let refined := addMidpoints elevationData
      let needs := needsElevationOf refined
      let publish := fun (susCount2 : ℕ) (merged : List ElevationPoint) =>
        (Event.setData merged, false)
          :: (Event.setProgress (50 + (((iter : ℚ) + 1) / (REFINEMENT_ITERATIONS : ℚ)) * 50), false)
          :: (Event.delayAwait, false)
          :: runRounds env remaining (iter + 1) (susCount2 + 1) merged
      if 0 < needs.length then
        let fetchEv : TEvent := (Event.fetchCall (needs.map fun p => (p.lat, p.lng)), false)
        match env.roundOutcome iter with
        | FetchOutcome.ok es =>
          if cancelObserved env.cancelAt (susCount + 1) then [fetchEv]
          else fetchEv :: publish (susCount + 1) (mergeElevations refined es)
        | outcome => fetchEv :: catchTrace env.cancelAt (susCount + 1) outcome
      else
        publish susCount refined

/-- The initial series (useElevationData.ts:63-68): zip the coarse
coordinates with the cumulative distances (`?? 0`) and the fetched
elevations (`?? null`) by index. -/
def initialSeries (dist : Coordinate → Coordinate → ℚ) (coords : List Coordinate)
    (elevations : List (Option ℚ)) : List ElevationPoint :=
  let distances := calculateCumulativeDistances dist coords
  (List.range coords.length).map fun i =>
    { lat := (coords.getD i default).lat
      lng := (coords.getD i default).lng
      distance := distances.getD i 0
      elevation := elevations.getD i none }

/-- One sampling session starting from the given coarse coordinates:
the synchronous prologue (useElevationData.ts:51-54), the initial fetch and
its cancellation check (lines 58-61), the first snapshot (lines 63-72), then
the refinement loop. -/
def runSession (env : Env) (coords : List Coordinate) : List TEvent :=
  let prologue : List TEvent :=
    [(Event.setLoading true, false), (Event.setProgress 10, false),
     (Event.setError none, false), (Event.setIsRefining false, false)]
  let fetchEv : TEvent := (Event.fetchCall (coords.map fun c => (c.lat, c.lng)), false)
  prologue ++ fetchEv ::
    match env.initialOutcome with
    | FetchOutcome.ok elevations =>
      if cancelObserved env.cancelAt 1 then []
      else
        let elevationData := initialSeries env.dist coords elevations
        (Event.setData elevationData, false) :: (Event.setProgress 50, false)
          :: (Event.setIsRefining true, false)
          :: runRounds env REFINEMENT_ITERATIONS 0 1 elevationData
    | outcome => catchTrace env.cancelAt 1 outcome

/-- Embedding of `fetchForLine(line)` (useElevationData.ts:41-149): a session whose
coarse coordinates come from `interpolatePoints(line.start, line.end, 15)`. -/
def run (env : Env) : List TEvent :=
  runSession env (interpolatePoints env.lineStart env.lineEnd INITIAL_SAMPLES)

/-- The snapshots a trace publishes (the `setData` payloads, in order). -/
def snapshots (tr : List TEvent) : List (List ElevationPoint) :=
  tr.filterMap fun e =>
    match e.1 with
    | Event.setData l => some l
    | _ => none

/-- The network requests a trace issues (the `fetchCall` payloads, in order). -/
def fetchRequests (tr : List TEvent) : List (List (ℚ × ℚ)) :=
  tr.filterMap fun e =>
    match e.1 with
    | Event.fetchCall r => some r
    | _ => none

/-- The error publications of a trace (the `setError` payloads, in order). -/
def errorEvents (tr : List TEvent) : List (Option String) :=
  tr.filterMap fun e =>
    match e.1 with
    | Event.setError m => some m
    | _ => none

/-- Modelled from the spec: the polyline-accepting `start` operation of the
progressive sampler.  The TopoSlicer component invokes the sampling hook
with a full vertex list (`fetchForLine(points: Coordinate[])`), but that
version of the hook is not among the source files — src only contains the
two-endpoint `LineCoords` variant.  Per the spec (§4.3, §7), `start` rejects
a polyline with fewer than 2 vertices with `InvalidInput` before any session
begins and before any network call; otherwise it samples the polyline
through `interpolatePolyline`. -/
def startPolyline (env : Env) (vertices : List Coordinate) :
    Option String × List TEvent :=
  if vertices.length < 2 then (some "InvalidInput", [])
  else (none, runSession env (interpolatePolyline env.dist vertices INITIAL_SAMPLES))

/-- The shape of an event, forgetting its payload; used to state facts about
the order of a session's observable actions. -/
inductive EventKind where
  | fetchCall
  | setData
  | setProgress
  | setError
  | setLoading
  | setIsRefining
  | delayAwait
  | deferredProgressReset
deriving DecidableEq, Repr

/-- The kind of an event. -/
def kindOf : Event → EventKind
  | Event.fetchCall _ => EventKind.fetchCall
  | Event.setData _ => EventKind.setData
  | Event.setProgress _ => EventKind.setProgress
  | Event.setError _ => EventKind.setError
  | Event.setLoading _ => EventKind.setLoading
  | Event.setIsRefining _ => EventKind.setIsRefining
  | Event.delayAwait => EventKind.delayAwait
  | Event.deferredProgressReset => EventKind.deferredProgressReset

/-- The kinds of a trace's events, in order. -/
def kindsOf (tr : List TEvent) : List EventKind :=
  tr.map fun e => kindOf e.1

/-- Adjacent-distance order relation used in the monotonicity proofs. -/
def distLE (p q : ElevationPoint) : Prop := p.distance ≤ q.distance

instance : DecidableRel distLE := fun p q => inferInstanceAs (Decidable (p.distance ≤ q.distance))

/-- The lat/lng/distance projection of a trace point, which the merge can
never change. -/
def coordDist (p : ElevationPoint) : ℚ × ℚ × ℤ := (p.lat, p.lng, p.distance)

/-- The distance invariant of a published series: non-decreasing distances
starting at 0. -/
def distOk (l : List ElevationPoint) : Prop :=
  List.Chain' (· ≤ ·) (l.map ElevationPoint.distance) ∧
    (l.map ElevationPoint.distance).head? = some 0

/-- The event-kind pattern of `k` successful refinement rounds: each round
issues a fetch, publishes the merged snapshot and its progress, then awaits
the inter-round delay. -/
def cleanRoundKinds : ℕ → List EventKind
  | 0 => []
  | k + 1 =>
    EventKind.fetchCall :: EventKind.setData :: EventKind.setProgress ::
      EventKind.delayAwait :: cleanRoundKinds k

/-- The post-loop completion events (useElevationData.ts:125-127). -/
def doneKinds : List EventKind :=
  [EventKind.setIsRefining, EventKind.setLoading, EventKind.deferredProgressReset]

/-- The kinds emitted when a round's fetch fails un-cancelled: the request
itself, then the catch block (useElevationData.ts:144-147). -/
def errorBlockKinds : List EventKind :=
  [EventKind.fetchCall, EventKind.setError, EventKind.setLoading,
   EventKind.setIsRefining, EventKind.setProgress]

/-- The kinds of the session prologue, the initial fetch and the first
snapshot (useElevationData.ts:51-72). -/
def startupKinds : List EventKind :=
  [EventKind.setLoading, EventKind.setProgress, EventKind.setError,
   EventKind.setIsRefining, EventKind.fetchCall, EventKind.setData,
   EventKind.setProgress, EventKind.setIsRefining]

/-- Concrete unit-length distance function for counterexamples. -/
def distOne : Coordinate → Coordinate → ℚ := fun _ _ => 1

/-- Vertex A of the C2 failing polyline. -/
def cA : Coordinate := ⟨0, 0⟩

/-- Vertex B (the shared boundary) of the C2 failing polyline. -/
def cB : Coordinate := ⟨0, 1⟩

/-- Vertex C of the C2 failing polyline. -/
def cC : Coordinate := ⟨1, 1⟩

/-- A session environment used only to instantiate universally quantified
theorems; every fetch succeeds vacuously and nothing is cancelled. -/
def envTrivial : Env :=
  { dist := fun _ _ => 0
    lineStart := ⟨0, 0⟩
    lineEnd := ⟨0, 0⟩
    initialOutcome := FetchOutcome.ok []
    roundOutcome := fun _ => FetchOutcome.ok []
    cancelAt := none }

/-- Environment for the C9 witness: constant unit distance, all elevations
present, cancellation during the round-0 fetch (so exactly the initial
snapshot is published). -/
def envW9 : Env :=
  { dist := fun _ _ => 1
    lineStart := ⟨0, 0⟩
    lineEnd := ⟨0, 1⟩
    initialOutcome := FetchOutcome.ok (List.replicate 16 (some 100))
    roundOutcome := fun _ => FetchOutcome.ok (List.replicate 200 (some 100))
    cancelAt := some 1 }

/-- Environment for the C3 counterexample: a fully successful session whose
`reset()` arrives during the final round's inter-round delay (suspension
point 6). -/
def envC3 : Env :=
  { dist := fun _ _ => 1
    lineStart := ⟨0, 0⟩
    lineEnd := ⟨0, 1⟩
    initialOutcome := FetchOutcome.ok (List.replicate 200 (some 100))
    roundOutcome := fun _ => FetchOutcome.ok (List.replicate 200 (some 100))
    cancelAt := some 6 }

/-- The two-sample series used by the C1 witness: its first sample still
lacks an elevation, its second carries a fetched one. -/
def dataC1 : List ElevationPoint :=
  [⟨0, 0, 0, none⟩, ⟨0, 1, 100, some 100⟩]

/-- Environment for the C1 counterexample: the initial fetch returns `null`
for the first sample (as the elevation API may), every later fetch succeeds
with values, and the session is cancelled during the round-0 delay so that
exactly two snapshots and two requests are observable. -/
def envC1 : Env :=
  { dist := fun _ _ => 1
    lineStart := ⟨0, 0⟩
    lineEnd := ⟨0, 1⟩
    initialOutcome := FetchOutcome.ok (none :: List.replicate 15 (some 100))
    roundOutcome := fun _ => FetchOutcome.ok (List.replicate 31 (some 5))
    cancelAt := some 2 }

/-- Environment for C8: a fully successful, never-cancelled session. -/
def envC8 : Env :=
  { dist := fun _ _ => 1
    lineStart := ⟨0, 0⟩
    lineEnd := ⟨0, 1⟩
    initialOutcome := FetchOutcome.ok (List.replicate 200 (some 100))
    roundOutcome := fun _ => FetchOutcome.ok (List.replicate 200 (some 100))
    cancelAt := none }

/-- Environment for the C4 witness: every fetch succeeds except the round-1
fetch, which fails with message `"boom"`; no cancellation. -/
def envC4 : Env :=
  { dist := fun _ _ => 1
    lineStart := ⟨0, 0⟩
    lineEnd := ⟨0, 1⟩
    initialOutcome := FetchOutcome.ok (List.replicate 200 (some 100))
    roundOutcome := fun r =>
      if r = 1 then FetchOutcome.failure "boom"
      else FetchOutcome.ok (List.replicate 200 (some 100))
    cancelAt := none }

/-! ## Basic lemmas about the pure round operations -/

theorem addMidpoints_length (l : List ElevationPoint) :
    (addMidpoints l).length = 2 * l.length - 1 := by
  induction l with
  | nil => simp [addMidpoints]
  | cons p rest ih =>
    cases rest with
    | nil => simp [addMidpoints]
    | cons q rest2 =>
      simp only [addMidpoints, List.length_cons] at ih ⊢
      omega

theorem mergeElevations_length (l : List ElevationPoint) (es : List (Option ℚ)) :
    (mergeElevations l es).length = l.length := by
  induction l generalizing es with
  | nil => simp [mergeElevations]
  | cons p rest ih =>
    cases hpe : p.elevation with
    | some e => simp [mergeElevations, hpe, ih]
    | none =>
      cases es with
      | nil => simp [mergeElevations, hpe, ih]
      | cons e es2 => simp [mergeElevations, hpe, ih]

theorem addMidpoints_headOpt (l : List ElevationPoint) :
    (addMidpoints l).head? = l.head? := by
  match l with
  | [] => rfl
  | [p] => rfl
  | p :: q :: rest => rfl

theorem round_mono_rat {x y : ℚ} (h : x ≤ y) : round x ≤ round y := by
  rw [round_eq, round_eq]
  exact Int.floor_mono (by linarith)

/-- The inserted distance `round((d0 + d1) / 2)` lies between its integer
neighbours. -/
theorem midpoint_distance_between {a b : ℤ} (h : a ≤ b) :
    a ≤ round (((a : ℚ) + (b : ℚ)) / 2) ∧ round (((a : ℚ) + (b : ℚ)) / 2) ≤ b := by
  have hab : (a : ℚ) ≤ (b : ℚ) := by exact_mod_cast h
  constructor
  · have h1 : (a : ℚ) ≤ ((a : ℚ) + (b : ℚ)) / 2 := by linarith
    have := round_mono_rat h1
    rwa [round_intCast] at this
  · have h2 : ((a : ℚ) + (b : ℚ)) / 2 ≤ (b : ℚ) := by linarith
    have := round_mono_rat h2
    rwa [round_intCast] at this



theorem chain'_addMidpoints {l : List ElevationPoint}
    (h : List.Chain' distLE l) : List.Chain' distLE (addMidpoints l) := by
  induction l with
  | nil => simp [addMidpoints]
  | cons p rest ih =>
    cases rest with
    | nil => simp [addMidpoints]
    | cons q rest2 =>
      rw [List.chain'_cons] at h
      have hpq : p.distance ≤ q.distance := h.1
      have htail := ih h.2
      have hmid := midpoint_distance_between hpq
      show List.Chain' distLE (p :: midpointOf p q :: addMidpoints (q :: rest2))
      have hhead : (addMidpoints (q :: rest2)).head? = some q := by
        rw [addMidpoints_headOpt]; rfl
      rw [List.chain'_cons]
      refine ⟨hmid.1, ?_⟩
      rcases hmq : addMidpoints (q :: rest2) with _ | ⟨q', t⟩
      · exact List.chain'_singleton _
      · rw [hmq] at hhead htail
        simp only [List.head?_cons, Option.some.injEq] at hhead
        subst hhead
        exact List.chain'_cons.mpr ⟨hmid.2, htail⟩

/-- The merge step only rewrites elevations: any projection that ignores the
elevation field is preserved pointwise. -/
theorem mergeElevations_map {α : Type} (f : ElevationPoint → α)
    (hf : ∀ p e, f { p with elevation := e } = f p)
    (l : List ElevationPoint) (es : List (Option ℚ)) :
    (mergeElevations l es).map f = l.map f := by
  induction l generalizing es with
  | nil => simp [mergeElevations]
  | cons p rest ih =>
    cases hpe : p.elevation with
    | some e => simp [mergeElevations, hpe, ih]
    | none =>
      cases es with
      | nil => simp [mergeElevations, hpe, ih, hf]
      | cons e es2 => simp [mergeElevations, hpe, ih, hf]

theorem mergeElevations_map_distance (l : List ElevationPoint) (es : List (Option ℚ)) :
    (mergeElevations l es).map ElevationPoint.distance = l.map ElevationPoint.distance :=
  mergeElevations_map ElevationPoint.distance (fun _ _ => rfl) l es

theorem range_map_getD {α : Type} (l : List α) (d : α) :
    (List.range l.length).map (fun i => l.getD i d) = l := by
  induction l with
  | nil => simp
  | cons a t ih =>
    rw [List.length_cons, List.range_succ_eq_map, List.map_cons, List.map_map]
    simp only [List.getD_cons_zero, List.cons.injEq, true_and]
    calc (List.range t.length).map ((fun i => (a :: t).getD i d) ∘ Nat.succ)
        = (List.range t.length).map (fun i => t.getD i d) := by
          apply List.map_congr_left; intro i _; rfl
      _ = t := ih

theorem cumulativeLoop_length (dist : Coordinate → Coordinate → ℚ)
    (prev : Coordinate) (rest : List Coordinate) (cumulative : ℚ) :
    (cumulativeLoop dist prev rest cumulative).length = rest.length := by
  induction rest generalizing prev cumulative with
  | nil => rfl
  | cons c t ih => simp [cumulativeLoop, ih]

theorem calculateCumulativeDistances_length (dist : Coordinate → Coordinate → ℚ)
    (coords : List Coordinate) :
    (calculateCumulativeDistances dist coords).length = max 1 coords.length := by
  cases coords with
  | nil => rfl
  | cons c rest =>
    simp [calculateCumulativeDistances, cumulativeLoop_length]

theorem initialSeries_length (dist : Coordinate → Coordinate → ℚ)
    (coords : List Coordinate) (elevations : List (Option ℚ)) :
    (initialSeries dist coords elevations).length = coords.length := by
  simp [initialSeries]

/-- The distances of the initial series are exactly the cumulative
distances, provided the coordinate list is non-empty (so that the two lists
have equal length and the `?? 0` fallback is never taken). -/
theorem initialSeries_map_distance (dist : Coordinate → Coordinate → ℚ)
    (coords : List Coordinate) (elevations : List (Option ℚ)) (h : coords ≠ []) :
    (initialSeries dist coords elevations).map ElevationPoint.distance =
      calculateCumulativeDistances dist coords := by
  have hlen : (calculateCumulativeDistances dist coords).length = coords.length := by
    rw [calculateCumulativeDistances_length]
    cases coords with
    | nil => exact absurd rfl h
    | cons c rest => simp
  calc (initialSeries dist coords elevations).map ElevationPoint.distance
      = (List.range coords.length).map
          (fun i => (calculateCumulativeDistances dist coords).getD i 0) := by
        simp [initialSeries, List.map_map]
    _ = (List.range (calculateCumulativeDistances dist coords).length).map
          (fun i => (calculateCumulativeDistances dist coords).getD i 0) := by rw [hlen]
    _ = calculateCumulativeDistances dist coords := range_map_getD _ 0

theorem chain_cumulativeLoop (dist : Coordinate → Coordinate → ℚ)
    (hd : ∀ a b, 0 ≤ dist a b) (prev : Coordinate) (rest : List Coordinate)
    (cumulative : ℚ) :
    List.Chain (· ≤ ·) (round cumulative) (cumulativeLoop dist prev rest cumulative) := by
  induction rest generalizing prev cumulative with
  | nil => exact List.Chain.nil
  | cons c t ih =>
    refine List.Chain.cons ?_ (ih c (cumulative + dist prev c))
    exact round_mono_rat (by have := hd prev c; linarith)

theorem chain'_calculateCumulativeDistances (dist : Coordinate → Coordinate → ℚ)
    (hd : ∀ a b, 0 ≤ dist a b) (coords : List Coordinate) :
    List.Chain' (· ≤ ·) (calculateCumulativeDistances dist coords) := by
  cases coords with
  | nil => simp [calculateCumulativeDistances]
  | cons c rest =>
    show List.Chain (· ≤ ·) 0 (cumulativeLoop dist c rest 0)
    have h := chain_cumulativeLoop dist hd c rest 0
    have h0 : round (0 : ℚ) = 0 := by norm_num [round_eq]
    rwa [h0] at h

theorem calculateCumulativeDistances_headOpt (dist : Coordinate → Coordinate → ℚ)
    (coords : List Coordinate) :
    (calculateCumulativeDistances dist coords).head? = some 0 := by
  cases coords <;> rfl

/-- Every sample of the current series reappears at the even position `2*i`
of the refined series. -/
theorem addMidpoints_getElemOpt_even (l : List ElevationPoint) (i : ℕ)
    (h : i < l.length) : (addMidpoints l)[2 * i]? = l[i]? := by
  induction i generalizing l with
  | zero =>
    match l with
    | [] => simp at h
    | [p] => rfl
    | p :: q :: rest => rfl
  | succ i ih =>
    match l with
    | [] => simp at h
    | [p] => simp at h
    | p :: q :: rest =>
      have h2 : 2 * (i + 1) = (2 * i + 1) + 1 := by omega
      rw [h2]
      show (p :: midpointOf p q :: addMidpoints (q :: rest))[2 * i + 1 + 1]? = _
      rw [List.getElem?_cons_succ, List.getElem?_cons_succ, List.getElem?_cons_succ]
      have := ih (l := q :: rest) (by simp at h ⊢; omega)
      rw [this]

/-- The merge leaves every point that already carries an elevation exactly
as it was. -/
theorem mergeElevations_getElemOpt_of_some (l : List ElevationPoint)
    (es : List (Option ℚ)) (i : ℕ) (p : ElevationPoint) (hp : l[i]? = some p)
    (hel : p.elevation ≠ none) : (mergeElevations l es)[i]? = some p := by
  induction l generalizing es i with
  | nil => simp at hp
  | cons q rest ih =>
    cases i with
    | zero =>
      simp only [List.getElem?_cons_zero, Option.some.injEq] at hp
      subst hp
      cases hqe : q.elevation with
      | none => exact absurd hqe hel
      | some e => simp [mergeElevations, hqe]
    | succ i =>
      rw [List.getElem?_cons_succ] at hp
      cases hqe : q.elevation with
      | some e =>
        simp only [mergeElevations, hqe, List.getElem?_cons_succ]
        exact ih es i hp
      | none =>
        cases es with
        | nil =>
          simp only [mergeElevations, hqe, List.getElem?_cons_succ]
          exact ih [] i hp
        | cons e es2 =>
          simp only [mergeElevations, hqe, List.getElem?_cons_succ]
          exact ih es2 i hp


theorem mergeElevations_getElemOpt_coordDist (l : List ElevationPoint)
    (es : List (Option ℚ)) (i : ℕ) :
    ((mergeElevations l es)[i]?).map coordDist = (l[i]?).map coordDist := by
  have hmap := mergeElevations_map coordDist (fun _ _ => rfl) l es
  calc ((mergeElevations l es)[i]?).map coordDist
      = ((mergeElevations l es).map coordDist)[i]? := by rw [List.getElem?_map]
    _ = ((l.map coordDist))[i]? := by rw [hmap]
    _ = (l[i]?).map coordDist := by rw [List.getElem?_map]

theorem needsElevationOf_elevation_none (refined : List ElevationPoint)
    (p : ElevationPoint) (hp : p ∈ needsElevationOf refined) : p.elevation = none := by
  have := List.of_mem_filter hp
  simpa [Option.isNone_iff_eq_none] using this

theorem needsElevationOf_sublist (refined : List ElevationPoint) :
    (needsElevationOf refined).Sublist refined :=
  List.filter_sublist refined

/-- Every freshly inserted midpoint needs an elevation: when the series has
at least two samples, the refined series contains a `null`-elevation point,
so the round always issues a fetch. -/
theorem needsElevationOf_addMidpoints_pos (data : List ElevationPoint)
    (h : 2 ≤ data.length) : 0 < (needsElevationOf (addMidpoints data)).length := by
  match data with
  | [] => simp at h
  | [p] => simp at h
  | p :: q :: rest =>
    rw [List.length_pos_iff_exists_mem]
    refine ⟨midpointOf p q, ?_⟩
    apply List.mem_filter.mpr
    refine ⟨?_, by simp [midpointOf]⟩
    show midpointOf p q ∈ p :: midpointOf p q :: addMidpoints (q :: rest)
    simp

/-! ## Trace-level lemmas -/


theorem chain'_distLE_iff (l : List ElevationPoint) :
    List.Chain' (· ≤ ·) (l.map ElevationPoint.distance) ↔ List.Chain' distLE l := by
  rw [List.chain'_map]
  exact Iff.rfl

theorem distOk_addMidpoints {data : List ElevationPoint} (h : distOk data) :
    distOk (addMidpoints data) := by
  constructor
  · exact (chain'_distLE_iff _).mpr (chain'_addMidpoints ((chain'_distLE_iff _).mp h.1))
  · rw [List.head?_map, addMidpoints_headOpt, ← List.head?_map]
    exact h.2

theorem distOk_merge {l : List ElevationPoint} {es : List (Option ℚ)}
    (h : distOk l) : distOk (mergeElevations l es) := by
  constructor
  · rw [mergeElevations_map_distance]; exact h.1
  · rw [mergeElevations_map_distance]; exact h.2

theorem catchTrace_tag_false (cancelAt : Option ℕ) (susCount : ℕ)
    (outcome : FetchOutcome) (ev : TEvent) (hev : ev ∈ catchTrace cancelAt susCount outcome) :
    ev.2 = false := by
  unfold catchTrace at hev
  split at hev
  · simp at hev
  · cases outcome with
    | abortRejection => simp at hev
    | ok es => simp at hev
    | failure m =>
      simp only [List.mem_cons, List.not_mem_nil, or_false] at hev
      rcases hev with rfl | rfl | rfl | rfl <;> rfl

theorem snapshots_catchTrace (cancelAt : Option ℕ) (susCount : ℕ)
    (outcome : FetchOutcome) : snapshots (catchTrace cancelAt susCount outcome) = [] := by
  unfold catchTrace
  split
  · rfl
  · cases outcome <;> rfl

/-- The only events a session can emit with the cancellation flag already
set are the post-loop flag clears and the deferred progress reset
(useElevationData.ts:125-127), which run without a cancellation check. -/
theorem runRounds_tag_true (env : Env) (remaining iter susCount : ℕ)
    (data : List ElevationPoint) (ev : TEvent)
    (hev : ev ∈ runRounds env remaining iter susCount data) (ht : ev.2 = true) :
    ev.1 = Event.setIsRefining false ∨ ev.1 = Event.setLoading false ∨
      ev.1 = Event.deferredProgressReset := by
  induction remaining generalizing iter susCount data with
  | zero =>
    simp only [runRounds, List.mem_cons, List.not_mem_nil, or_false] at hev
    rcases hev with rfl | rfl | rfl
    · exact Or.inl rfl
    · exact Or.inr (Or.inl rfl)
    · exact Or.inr (Or.inr rfl)
  | succ remaining ih =>
    simp only [runRounds] at hev
    split at hev
    · simp at hev
    · split at hev
      · cases houtcome : env.roundOutcome iter with
        | ok es =>
          simp only [houtcome] at hev
          split at hev
          · simp only [List.mem_singleton] at hev
            subst hev; simp at ht
          · simp only [List.mem_cons] at hev
            rcases hev with rfl | rfl | rfl | rfl | hev
            · simp at ht
            · simp at ht
            · simp at ht
            · simp at ht
            · exact ih _ _ _ hev
        | abortRejection =>
          simp only [houtcome] at hev
          simp only [List.mem_cons] at hev
          rcases hev with rfl | hev
          · simp at ht
          · rw [catchTrace_tag_false _ _ _ _ hev] at ht; simp at ht
        | failure m =>
          simp only [houtcome] at hev
          simp only [List.mem_cons] at hev
          rcases hev with rfl | hev
          · simp at ht
          · rw [catchTrace_tag_false _ _ _ _ hev] at ht; simp at ht
      · simp only [List.mem_cons] at hev
        rcases hev with rfl | rfl | rfl | hev
        · simp at ht
        · simp at ht
        · simp at ht
        · exact ih _ _ _ hev

/-- Lifting of `runRounds_tag_true` to a whole session run. -/
theorem runSession_tag_true (env : Env) (coords : List Coordinate) (ev : TEvent)
    (hev : ev ∈ runSession env coords) (ht : ev.2 = true) :
    ev.1 = Event.setIsRefining false ∨ ev.1 = Event.setLoading false ∨
      ev.1 = Event.deferredProgressReset := by
  simp only [runSession, List.mem_append, List.mem_cons, List.not_mem_nil, or_false] at hev
  rcases hev with (rfl | rfl | rfl | rfl) | rfl | hev
  · simp at ht
  · simp at ht
  · simp at ht
  · simp at ht
  · simp at ht
  · cases houtcome : env.initialOutcome with
    | ok elevations =>
      simp only [houtcome] at hev
      split at hev
      · simp at hev
      · simp only [List.mem_cons] at hev
        rcases hev with rfl | rfl | rfl | hev
        · simp at ht
        · simp at ht
        · simp at ht
        · exact runRounds_tag_true env _ _ _ _ ev hev ht
    | abortRejection =>
      simp only [houtcome] at hev
      rw [catchTrace_tag_false _ _ _ _ hev] at ht; simp at ht
    | failure m =>
      simp only [houtcome] at hev
      rw [catchTrace_tag_false _ _ _ _ hev] at ht; simp at ht

theorem snapshots_cons_setData (l : List ElevationPoint) (b : Bool) (tr : List TEvent) :
    snapshots ((Event.setData l, b) :: tr) = l :: snapshots tr := rfl

theorem snapshots_cons_fetchCall (r : List (ℚ × ℚ)) (b : Bool) (tr : List TEvent) :
    snapshots ((Event.fetchCall r, b) :: tr) = snapshots tr := rfl

theorem snapshots_cons_setProgress (p : ℚ) (b : Bool) (tr : List TEvent) :
    snapshots ((Event.setProgress p, b) :: tr) = snapshots tr := rfl

theorem snapshots_cons_setError (m : Option String) (b : Bool) (tr : List TEvent) :
    snapshots ((Event.setError m, b) :: tr) = snapshots tr := rfl

theorem snapshots_cons_setLoading (v b : Bool) (tr : List TEvent) :
    snapshots ((Event.setLoading v, b) :: tr) = snapshots tr := rfl

theorem snapshots_cons_setIsRefining (v b : Bool) (tr : List TEvent) :
    snapshots ((Event.setIsRefining v, b) :: tr) = snapshots tr := rfl

theorem snapshots_cons_delayAwait (b : Bool) (tr : List TEvent) :
    snapshots ((Event.delayAwait, b) :: tr) = snapshots tr := rfl

theorem snapshots_cons_deferred (b : Bool) (tr : List TEvent) :
    snapshots ((Event.deferredProgressReset, b) :: tr) = snapshots tr := rfl

theorem snapshots_append (a b : List TEvent) :
    snapshots (a ++ b) = snapshots a ++ snapshots b :=
  List.filterMap_append a b _

/-- Every snapshot published by the refinement loop satisfies the distance
invariant if the entering series does. -/
theorem snapshots_runRounds_distOk (env : Env) (remaining iter susCount : ℕ)
    (data : List ElevationPoint) (hdata : distOk data) (l : List ElevationPoint)
    (hl : l ∈ snapshots (runRounds env remaining iter susCount data)) : distOk l := by
  induction remaining generalizing iter susCount data with
  | zero =>
    simp [runRounds, snapshots] at hl
  | succ remaining ih =>
    simp only [runRounds] at hl
    split at hl
    · simp [snapshots] at hl
    · split at hl
      · cases houtcome : env.roundOutcome iter with
        | ok es =>
          simp only [houtcome] at hl
          split at hl
          · simp [snapshots] at hl
          · rw [snapshots_cons_fetchCall, snapshots_cons_setData] at hl
            rcases List.mem_cons.mp hl with rfl | hl
            · exact distOk_merge (distOk_addMidpoints hdata)
            · rw [snapshots_cons_setProgress, snapshots_cons_delayAwait] at hl
              exact ih _ _ _ (distOk_merge (distOk_addMidpoints hdata)) hl
        | abortRejection =>
          simp only [houtcome] at hl
          rw [snapshots_cons_fetchCall, snapshots_catchTrace] at hl
          simp at hl
        | failure m =>
          simp only [houtcome] at hl
          rw [snapshots_cons_fetchCall, snapshots_catchTrace] at hl
          simp at hl
      · rw [snapshots_cons_setData] at hl
        rcases List.mem_cons.mp hl with rfl | hl
        · exact distOk_addMidpoints hdata
        · rw [snapshots_cons_setProgress, snapshots_cons_delayAwait] at hl
          exact ih _ _ _ (distOk_addMidpoints hdata) hl

theorem kindsOf_cons (e : TEvent) (tr : List TEvent) :
    kindsOf (e :: tr) = kindOf e.1 :: kindsOf tr := rfl

theorem kindsOf_append (a b : List TEvent) :
    kindsOf (a ++ b) = kindsOf a ++ kindsOf b := List.map_append _ a b


theorem cancelObserved_none (susCount : ℕ) : cancelObserved none susCount = false := rfl

/-- Splitting the refinement loop after `k` successful, uncancelled rounds:
the emitted trace is a clean `k`-round prefix followed by the loop continuing
on a series that still has at least two samples. -/
theorem runRounds_ok_split (env : Env) (hcancel : env.cancelAt = none) :
    ∀ (k rem iter susCount : ℕ) (data : List ElevationPoint),
    (∀ r, r < k → ∃ es, env.roundOutcome (iter + r) = FetchOutcome.ok es) →
    2 ≤ data.length →
    ∃ pre data2, kindsOf pre = cleanRoundKinds k ∧ 2 ≤ data2.length ∧
      runRounds env (k + rem) iter susCount data =
        pre ++ runRounds env rem (iter + k) (susCount + 2 * k) data2 := by
  intro k
  induction k with
  | zero =>
    intro rem iter susCount data _ hlen
    exact ⟨[], data, rfl, hlen, by simp⟩
  | succ k ih =>
    intro rem iter susCount data hok hlen
    obtain ⟨es0, hes0⟩ := hok 0 (by omega)
    rw [Nat.add_zero] at hes0
    have hpos := needsElevationOf_addMidpoints_pos data hlen
    have hmergedlen :
        2 ≤ (mergeElevations (addMidpoints data) es0).length := by
      rw [mergeElevations_length, addMidpoints_length]
      omega
    obtain ⟨pre2, data2, hpre2, hlen2, heq2⟩ :=
      ih rem (iter + 1) (susCount + 2) (mergeElevations (addMidpoints data) es0)
        (fun r hr => by
          obtain ⟨es, hes⟩ := hok (r + 1) (by omega)
          exact ⟨es, by rw [← hes]; congr 1; omega⟩)
        hmergedlen
    have harith : k + 1 + rem = (k + rem) + 1 := by omega
    rw [harith]
    refine ⟨(Event.fetchCall ((needsElevationOf (addMidpoints data)).map fun p => (p.lat, p.lng)), false)
        :: (Event.setData (mergeElevations (addMidpoints data) es0), false)
        :: (Event.setProgress (50 + (((iter : ℚ) + 1) / (REFINEMENT_ITERATIONS : ℚ)) * 50), false)
        :: (Event.delayAwait, false) :: pre2, data2, ?_, hlen2, ?_⟩
    · simp only [kindsOf_cons, hpre2]
      rfl
    · simp only [runRounds, hcancel, cancelObserved_none, Bool.false_eq_true, if_false,
        if_pos hpos, hes0]
      rw [heq2]
      simp only [List.cons_append, List.nil_append]
      have h1 : iter + 1 + k = iter + (k + 1) := by omega
      have h2 : susCount + 2 + 2 * k = susCount + 2 * (k + 1) := by omega
      rw [h1, h2]

theorem interpolatePoints_length (start finish : Coordinate) (numPoints : ℕ) :
    (interpolatePoints start finish numPoints).length = numPoints + 1 := by
  rw [interpolatePoints, List.length_map, List.length_range]




theorem runRounds_zero_of_none (env : Env) (hcancel : env.cancelAt = none)
    (iter susCount : ℕ) (data : List ElevationPoint) :
    runRounds env 0 iter susCount data =
      [(Event.setIsRefining false, false), (Event.setLoading false, false),
       (Event.deferredProgressReset, false)] := by
  simp [runRounds, hcancel, cancelObserved_none]

theorem runRounds_fail (env : Env) (hcancel : env.cancelAt = none)
    (rem iter susCount : ℕ) (data : List ElevationPoint) (m : String)
    (hpos : 0 < (needsElevationOf (addMidpoints data)).length)
    (hfail : env.roundOutcome iter = FetchOutcome.failure m) :
    runRounds env (rem + 1) iter susCount data =
      [(Event.fetchCall ((needsElevationOf (addMidpoints data)).map fun p => (p.lat, p.lng)), false),
       (Event.setError (some m), false), (Event.setLoading false, false),
       (Event.setIsRefining false, false), (Event.setProgress 0, false)] := by
  simp only [runRounds, hcancel, cancelObserved_none, Bool.false_eq_true, if_false,
    if_pos hpos, hfail]
  simp [catchTrace, cancelObserved_none]

theorem run_ok_unfold (env : Env) (es0 : List (Option ℚ))
    (hcancel : env.cancelAt = none) (hinit : env.initialOutcome = FetchOutcome.ok es0) :
    run env =
      [(Event.setLoading true, false), (Event.setProgress 10, false),
       (Event.setError none, false), (Event.setIsRefining false, false),
       (Event.fetchCall ((interpolatePoints env.lineStart env.lineEnd INITIAL_SAMPLES).map
          fun c => (c.lat, c.lng)), false),
       (Event.setData (initialSeries env.dist
          (interpolatePoints env.lineStart env.lineEnd INITIAL_SAMPLES) es0), false),
       (Event.setProgress 50, false), (Event.setIsRefining true, false)]
      ++ runRounds env REFINEMENT_ITERATIONS 0 1
          (initialSeries env.dist
            (interpolatePoints env.lineStart env.lineEnd INITIAL_SAMPLES) es0) := by
  simp [run, runSession, hinit, hcancel, cancelObserved_none]

theorem errorEvents_nil_of_kinds (tr : List TEvent)
    (h : EventKind.setError ∉ kindsOf tr) : errorEvents tr = [] := by
  induction tr with
  | nil => rfl
  | cons e t ih =>
    obtain ⟨e1, b⟩ := e
    rw [kindsOf_cons] at h
    simp only [List.mem_cons, not_or] at h
    cases e1 with
    | setError m => exact absurd rfl h.1
    | fetchCall r => exact ih h.2
    | setData l => exact ih h.2
    | setProgress p => exact ih h.2
    | setLoading v => exact ih h.2
    | setIsRefining v => exact ih h.2
    | delayAwait => exact ih h.2
    | deferredProgressReset => exact ih h.2

theorem setError_not_mem_cleanRoundKinds (k : ℕ) :
    EventKind.setError ∉ cleanRoundKinds k := by
  induction k with
  | zero => simp [cleanRoundKinds]
  | succ k ih => simp [cleanRoundKinds, ih]

theorem errorEvents_append (a b : List TEvent) :
    errorEvents (a ++ b) = errorEvents a ++ errorEvents b :=
  List.filterMap_append a b _

/-! ## Claim theorems -/

/-- C10: `calculateCumulativeDistances` returns the one-element list `[0]`
for the empty coordinate list (output longer than the input), and for a
non-empty list of `n` coordinates returns exactly `n` values whose first
element is `0`. -/
theorem claim_C10 (dist : Coordinate → Coordinate → ℚ) (coords : List Coordinate) :
    (calculateCumulativeDistances dist coords).length =
      (if coords.length = 0 then 1 else coords.length) ∧
    (calculateCumulativeDistances dist coords).head? = some 0 := by
  refine ⟨?_, calculateCumulativeDistances_headOpt dist coords⟩
  rw [calculateCumulativeDistances_length]
  cases coords with
  | nil => simp
  | cons c rest => simp

/-- C5: one refinement round turns a non-empty series of length `n` into a
series of length exactly `2 * n - 1`: a midpoint is inserted in every gap
and the merge changes no length. -/
theorem claim_C5 (data : List ElevationPoint) (es : List (Option ℚ))
    (h : data ≠ []) : (refineStep data es).length = 2 * data.length - 1 := by
  have hne := h
  show (if 0 < (needsElevationOf (addMidpoints data)).length then
      mergeElevations (addMidpoints data) es else addMidpoints data).length =
    2 * data.length - 1
  split
  · rw [mergeElevations_length, addMidpoints_length]
  · rw [addMidpoints_length]

/-- Witness for C5 at a concrete two-point series. -/
theorem claim_C5_witness :
    (refineStep [⟨0, 0, 0, none⟩, ⟨0, 1, 100, some 100⟩] [some 5]).length = 2 * 2 - 1 :=
  claim_C5 [⟨0, 0, 0, none⟩, ⟨0, 1, 100, some 100⟩] [some 5] (by decide)

/-- C6: when the remote honours its contract (HTTP success, status `"OK"`,
one result per requested coordinate), `fetchElevations` returns the
elevations in response order with exactly one value per input coordinate;
and the empty input returns the empty list without any network call. -/
theorem claim_C6 (coords : List Coordinate) (body : OpenTopoDataResponse)
    (hstatus : body.status = "OK") (hlen : body.results.length = coords.length) :
    (fetchElevationsModel coords (HttpResponse.body body)).2 =
      Except.ok (body.results.map fun r => r.elevation) ∧
    (body.results.map fun r => r.elevation).length = coords.length ∧
    fetchElevationsModel [] (HttpResponse.body body) = (false, Except.ok []) := by
  refine ⟨?_, by simpa using hlen, rfl⟩
  unfold fetchElevationsModel
  split
  · rename_i h0
    have hres : body.results = [] := List.eq_nil_of_length_eq_zero (by omega)
    simp [hres]
  · simp [hstatus]

/-- Witness for C6 at a one-coordinate request with a conforming response. -/
theorem claim_C6_witness :
    (fetchElevationsModel [⟨0, 0⟩]
        (HttpResponse.body ⟨[⟨some 100, 0, 0⟩], "OK", none⟩)).2 =
      Except.ok ([⟨some 100, 0, 0⟩].map fun r => OpenTopoResult.elevation r) ∧
    ([(⟨some 100, 0, 0⟩ : OpenTopoResult)].map fun r => r.elevation).length =
      ([⟨0, 0⟩] : List Coordinate).length ∧
    fetchElevationsModel [] (HttpResponse.body ⟨[⟨some 100, 0, 0⟩], "OK", none⟩) =
      (false, Except.ok []) :=
  claim_C6 [⟨0, 0⟩] ⟨[⟨some 100, 0, 0⟩], "OK", none⟩ rfl rfl





/-- C2: evaluation of `interpolatePolyline` at the 3-vertex polyline
`[A, B, C]` with `totalSamples = 2` and unit segment lengths.  Each segment
gets `max(1, round(1/2 · 2)) = 1` sample; segment 0 contributes only `[A]`
(its `endIdx` drops `B`), segment 1 contributes only `[C]` (the `j = 0` skip
drops `B` again): the shared boundary vertex `B` is omitted entirely, not
included exactly once as the spec and the code's own comments state. -/
theorem claim_C2_code_eval :
    interpolatePolyline distOne [cA, cB, cC] 2 = [cA, cC] ∧
    cB ∉ interpolatePolyline distOne [cA, cB, cC] 2 := by
  constructor
  · with_unfolding_all rfl
  · with_unfolding_all decide


/-- C7: a polyline with fewer than 2 vertices is rejected with
`InvalidInput` before any session begins, and no network request is issued.
(Settled against the spec-modelled `startPolyline`, see its docstring.) -/
theorem claim_C7 (env : Env) (vertices : List Coordinate)
    (h : vertices.length < 2) :
    startPolyline env vertices = (some "InvalidInput", []) ∧
    fetchRequests (startPolyline env vertices).2 = [] := by
  have heq : startPolyline env vertices = (some "InvalidInput", []) := by
    unfold startPolyline
    rw [if_pos h]
  exact ⟨heq, by rw [heq]; rfl⟩

/-- Witness for C7 at the empty polyline. -/
theorem claim_C7_witness :
    startPolyline envTrivial [] = (some "InvalidInput", []) ∧
    fetchRequests (startPolyline envTrivial []).2 = [] :=
  claim_C7 envTrivial [] (by decide)

/-- Every snapshot a session publishes satisfies the distance invariant,
provided the distance function is non-negative and the initial coordinate
list is non-empty. -/
theorem snapshots_runSession_distOk (env : Env) (coords : List Coordinate)
    (hd : ∀ a b, 0 ≤ env.dist a b) (hne : coords ≠ [])
    (l : List ElevationPoint) (hl : l ∈ snapshots (runSession env coords)) :
    distOk l := by
  have hdata0 : ∀ es, distOk (initialSeries env.dist coords es) := by
    intro es
    have hds := initialSeries_map_distance env.dist coords es hne
    constructor
    · rw [hds]
      exact chain'_calculateCumulativeDistances env.dist hd coords
    · rw [hds]
      exact calculateCumulativeDistances_headOpt env.dist coords
  simp only [runSession] at hl
  rw [snapshots_append] at hl
  rw [show snapshots [(Event.setLoading true, false), (Event.setProgress 10, false),
      (Event.setError none, false), (Event.setIsRefining false, false)] = [] from rfl] at hl
  rw [List.nil_append, snapshots_cons_fetchCall] at hl
  cases houtcome : env.initialOutcome with
  | ok es =>
    simp only [houtcome] at hl
    split at hl
    · simp [snapshots] at hl
    · rw [snapshots_cons_setData] at hl
      rcases List.mem_cons.mp hl with rfl | hl
      · exact hdata0 es
      · rw [snapshots_cons_setProgress, snapshots_cons_setIsRefining] at hl
        exact snapshots_runRounds_distOk env _ _ _ _ (hdata0 es) l hl
  | abortRejection =>
    simp only [houtcome] at hl
    rw [snapshots_catchTrace] at hl
    simp at hl
  | failure m =>
    simp only [houtcome] at hl
    rw [snapshots_catchTrace] at hl
    simp at hl

/-- C9: every SampleSeries the sampler publishes — the initial series built
from cumulative distances and the series after each refinement round — has
non-decreasing `distance` values with the first sample at distance 0,
assuming only that the distance function is non-negative (as the haversine
distance is). -/
theorem claim_C9 (env : Env) (hd : ∀ a b, 0 ≤ env.dist a b)
    (l : List ElevationPoint) (hl : l ∈ snapshots (run env)) :
    List.Chain' (· ≤ ·) (l.map ElevationPoint.distance) ∧
      (l.map ElevationPoint.distance).head? = some 0 := by
  have hne : interpolatePoints env.lineStart env.lineEnd INITIAL_SAMPLES ≠ [] := by
    intro hnil
    have hlen := interpolatePoints_length env.lineStart env.lineEnd INITIAL_SAMPLES
    rw [hnil] at hlen
    simp at hlen
  exact snapshots_runSession_distOk env _ hd hne l hl


/-- Witness for C9: the initial snapshot of a concrete session has sorted
distances starting at 0. -/
theorem claim_C9_witness :
    List.Chain' (· ≤ ·)
      (((snapshots (run envW9)).getD 0 []).map ElevationPoint.distance) ∧
    ((((snapshots (run envW9)).getD 0 []).map ElevationPoint.distance)).head? = some 0 :=
  claim_C9 envW9 (fun a b => by show (0 : ℚ) ≤ 1; norm_num) _
    (by with_unfolding_all decide)

/-- C3 (amended): once cancellation has been requested, the session never
publishes another snapshot, error, progress value or network request; the
only actions that can still occur are the post-loop `setIsRefining(false)`,
`setLoading(false)` and the deferred progress reset, because the code checks
the cancellation flag after every fetch suspension and at the top of every
round, but not between the final round's delay and the completion block. -/
theorem claim_C3 (env : Env) (ev : TEvent) (hev : ev ∈ run env)
    (ht : ev.2 = true) :
    ev.1 = Event.setIsRefining false ∨ ev.1 = Event.setLoading false ∨
      ev.1 = Event.deferredProgressReset :=
  runSession_tag_true env _ ev hev ht


/-- C3 counterexample: cancellation requested during the final round's delay
is followed by three observable state mutations — `setIsRefining(false)`,
`setLoading(false)` and the scheduling of the deferred progress reset — with
no cancellation check in between, contradicting the claim that the flag is
checked after every suspension point before any mutation. -/
theorem claim_C3_counterexample :
    ((run envC3).filter fun e => e.2).map Prod.fst =
      [Event.setIsRefining false, Event.setLoading false,
       Event.deferredProgressReset] := by
  with_unfolding_all rfl

/-- Witness for C3 (amended) at a concrete post-cancellation event. -/
theorem claim_C3_witness :
    (Event.setIsRefining false, true).1 = Event.setIsRefining false ∨
    (Event.setIsRefining false, true).1 = Event.setLoading false ∨
    (Event.setIsRefining false, true).1 = Event.deferredProgressReset :=
  claim_C3 envC3 (Event.setIsRefining false, true)
    (by with_unfolding_all decide) rfl

/-- C1 (amended): a refinement round carries every sample that already has a
fetched (non-null) elevation over unchanged to the even position `2*i` of
the refined series; the coordinate and distance of every sample are carried
over regardless; and the round's fetch request (the null-elevation points of
the refined series) consists only of null-elevation points, listed in their
left-to-right order. -/
theorem claim_C1 (data : List ElevationPoint) (es : List (Option ℚ))
    (i j : ℕ) (p : ElevationPoint) (hi : i < data.length) (hj : j < data.length)
    (hp : data[i]? = some p) (hel : p.elevation ≠ none) :
    (refineStep data es)[2 * i]? = some p ∧
    ((refineStep data es)[2 * j]?).map coordDist = (data[j]?).map coordDist ∧
    (needsElevationOf (addMidpoints data)).all (fun q => q.elevation.isNone) = true ∧
    (needsElevationOf (addMidpoints data)).Sublist (addMidpoints data) := by
  have hones : ∀ (l : List (Option ℚ)),
      refineStep data l = (if 0 < (needsElevationOf (addMidpoints data)).length then
        mergeElevations (addMidpoints data) l else addMidpoints data) := fun _ => rfl
  refine ⟨?_, ?_,
    List.all_eq_true.mpr (fun q hq => by
      have hqe := needsElevationOf_elevation_none _ q hq
      simp [hqe]),
    needsElevationOf_sublist _⟩
  · rw [hones]
    split
    · exact mergeElevations_getElemOpt_of_some _ es (2 * i) p
        (by rw [addMidpoints_getElemOpt_even data i hi]; exact hp) hel
    · rw [addMidpoints_getElemOpt_even data i hi]
      exact hp
  · rw [hones]
    split
    · rw [mergeElevations_getElemOpt_coordDist, addMidpoints_getElemOpt_even data j hj]
    · rw [addMidpoints_getElemOpt_even data j hj]


/-- Witness for C1 (amended) on a concrete series. -/
theorem claim_C1_witness :
    (refineStep dataC1 [some 5, some 7])[2 * 1]? = some ⟨0, 1, 100, some 100⟩ ∧
    ((refineStep dataC1 [some 5, some 7])[2 * 0]?).map coordDist =
      ((dataC1)[0]?).map coordDist ∧
    (needsElevationOf (addMidpoints dataC1)).all (fun q => q.elevation.isNone) = true ∧
    (needsElevationOf (addMidpoints dataC1)).Sublist (addMidpoints dataC1) :=
  claim_C1 dataC1 [some 5, some 7] 1 0 ⟨0, 1, 100, some 100⟩
    (by decide) (by decide) (by with_unfolding_all decide) (by decide)


/-- C1 counterexample: the first sample of the round-0 series (elevation
`null` because the API returned `null` for it) is **not** present unchanged
in the round-1 series — the merge overwrote its elevation — and the round-1
fetch request has 16 entries including that old sample's coordinates, while
only 15 midpoints were newly inserted (31 - 16), so the fetch is not
"exactly the newly inserted midpoints". -/
theorem claim_C1_counterexample :
    (⟨0, 0, 0, none⟩ : ElevationPoint) ∈ (snapshots (run envC1)).getD 0 [] ∧
    (⟨0, 0, 0, none⟩ : ElevationPoint) ∉ (snapshots (run envC1)).getD 1 [] ∧
    ((0 : ℚ), (0 : ℚ)) ∈ (fetchRequests (run envC1)).getD 1 [] ∧
    ((fetchRequests (run envC1)).getD 1 []).length = 16 ∧
    ((snapshots (run envC1)).getD 1 []).length = 31 ∧
    ((snapshots (run envC1)).getD 0 []).length = 16 := by
  with_unfolding_all decide


/-- C8 (amended): in a fully successful, never-cancelled session the
inter-round pause runs after **every** refinement round, the last one
included; the completion block (clearing the refining/loading flags and
scheduling the deferred progress reset) runs only after the final round's
pause. -/
theorem claim_C8 (env : Env) (es0 : List (Option ℚ))
    (hcancel : env.cancelAt = none)
    (hinit : env.initialOutcome = FetchOutcome.ok es0)
    (hok : ∀ r, ∃ es, env.roundOutcome r = FetchOutcome.ok es) :
    kindsOf (run env) =
      startupKinds ++ cleanRoundKinds REFINEMENT_ITERATIONS ++ doneKinds := by
  have hlen0 : 2 ≤ (initialSeries env.dist
      (interpolatePoints env.lineStart env.lineEnd INITIAL_SAMPLES) es0).length := by
    rw [initialSeries_length, interpolatePoints_length]
    decide
  obtain ⟨pre, data2, hpre, hlen2, heq⟩ :=
    runRounds_ok_split env hcancel REFINEMENT_ITERATIONS 0 0 1
      (initialSeries env.dist
        (interpolatePoints env.lineStart env.lineEnd INITIAL_SAMPLES) es0)
      (fun r _ => (hok r).imp fun es h => by rwa [Nat.zero_add]) hlen0
  rw [Nat.add_zero] at heq
  rw [run_ok_unfold env es0 hcancel hinit, heq, runRounds_zero_of_none env hcancel]
  simp only [kindsOf_append, hpre, List.append_assoc]
  rfl

/-- C8 counterexample: in the concrete successful session, the final
round's snapshot (`setData` at position 17, the last one) is followed by its
progress update and then by a `delayAwait` **before** the completion events
— the pause is not skipped after the last round. -/
theorem claim_C8_counterexample :
    (kindsOf (run envC8)).drop 17 =
      [EventKind.setData, EventKind.setProgress, EventKind.delayAwait,
       EventKind.setIsRefining, EventKind.setLoading,
       EventKind.deferredProgressReset] := by
  with_unfolding_all rfl

/-- Witness for C8 (amended) at the concrete successful session. -/
theorem claim_C8_witness :
    kindsOf (run envC8) =
      startupKinds ++ cleanRoundKinds REFINEMENT_ITERATIONS ++ doneKinds :=
  claim_C8 envC8 (List.replicate 200 (some 100)) rfl rfl
    (fun _ => ⟨List.replicate 200 (some 100), rfl⟩)

/-- C4: a fetch failure that is not a cancellation aborts the session
immediately: whether the initial fetch or the round-`k` fetch fails, the
trace ends right after the failing request with exactly
`setError(message)`, `setLoading(false)`, `setIsRefining(false)`,
`setProgress(0)` — the error message is surfaced, progress is reset to 0,
and no `setData` follows the failure, so the last published SampleSeries
stays as it was. -/
theorem claim_C4 (env : Env) (hcancel : env.cancelAt = none) :
    (∀ m, env.initialOutcome = FetchOutcome.failure m →
      kindsOf (run env) =
        [EventKind.setLoading, EventKind.setProgress, EventKind.setError,
         EventKind.setIsRefining, EventKind.fetchCall, EventKind.setError,
         EventKind.setLoading, EventKind.setIsRefining, EventKind.setProgress] ∧
      errorEvents (run env) = [none, some m] ∧
      (run env).getLast? = some (Event.setProgress 0, false)) ∧
    (∀ k m es0, env.initialOutcome = FetchOutcome.ok es0 →
      (∀ r, r < k → ∃ es, env.roundOutcome r = FetchOutcome.ok es) →
      k < REFINEMENT_ITERATIONS → env.roundOutcome k = FetchOutcome.failure m →
      kindsOf (run env) = startupKinds ++ cleanRoundKinds k ++ errorBlockKinds ∧
      errorEvents (run env) = [none, some m] ∧
      (run env).getLast? = some (Event.setProgress 0, false)) := by
  constructor
  · intro m hfail
    have hrun : run env =
        [(Event.setLoading true, false), (Event.setProgress 10, false),
         (Event.setError none, false), (Event.setIsRefining false, false),
         (Event.fetchCall ((interpolatePoints env.lineStart env.lineEnd
            INITIAL_SAMPLES).map fun c => (c.lat, c.lng)), false),
         (Event.setError (some m), false), (Event.setLoading false, false),
         (Event.setIsRefining false, false), (Event.setProgress 0, false)] := by
      simp [run, runSession, hfail, catchTrace, hcancel, cancelObserved_none]
    rw [hrun]
    exact ⟨rfl, rfl, rfl⟩
  · intro k m es0 hinit hok hk hfail
    have hlen0 : 2 ≤ (initialSeries env.dist
        (interpolatePoints env.lineStart env.lineEnd INITIAL_SAMPLES) es0).length := by
      rw [initialSeries_length, interpolatePoints_length]
      decide
    obtain ⟨pre, data2, hpre, hlen2, heq⟩ :=
      runRounds_ok_split env hcancel k (REFINEMENT_ITERATIONS - k) 0 1
        (initialSeries env.dist
          (interpolatePoints env.lineStart env.lineEnd INITIAL_SAMPLES) es0)
        (fun r hr => (hok r hr).imp fun es h => by rwa [Nat.zero_add]) hlen0
    have hk3 : k + (REFINEMENT_ITERATIONS - k) = REFINEMENT_ITERATIONS := by
      omega
    rw [hk3] at heq
    have hfail2 : env.roundOutcome (0 + k) = FetchOutcome.failure m := by
      rwa [Nat.zero_add]
    have hpos2 := needsElevationOf_addMidpoints_pos data2 hlen2
    have hrem : REFINEMENT_ITERATIONS - k = (REFINEMENT_ITERATIONS - k - 1) + 1 := by
      omega
    have hfailtrace := runRounds_fail env hcancel (REFINEMENT_ITERATIONS - k - 1)
      (0 + k) (1 + 2 * k) data2 m hpos2 hfail2
    rw [← hrem] at hfailtrace
    rw [hfailtrace] at heq
    rw [run_ok_unfold env es0 hcancel hinit, heq]
    have hpreerr : errorEvents pre = [] :=
      errorEvents_nil_of_kinds pre
        (by rw [hpre]; exact setError_not_mem_cleanRoundKinds k)
    refine ⟨?_, ?_, ?_⟩
    · simp only [kindsOf_append, hpre, List.append_assoc]
      rfl
    · simp only [errorEvents_append, hpreerr]
      rfl
    · rw [List.getLast?_append_of_ne_nil _ (by simp),
        List.getLast?_append_of_ne_nil _ (by simp)]
      rfl


/-- Witness for C4: the concrete session whose round-1 fetch fails ends with
the error block, surfaces `"boom"`, and resets progress to 0. -/
theorem claim_C4_witness :
    kindsOf (run envC4) = startupKinds ++ cleanRoundKinds 1 ++ errorBlockKinds ∧
    errorEvents (run envC4) = [none, some "boom"] ∧
    (run envC4).getLast? = some (Event.setProgress 0, false) :=
  (claim_C4 envC4 rfl).2 1 "boom" (List.replicate 200 (some 100)) rfl
    (fun r hr => ⟨List.replicate 200 (some 100), by
      have hr0 : r = 0 := by omega
      rw [hr0]; rfl⟩)
    (by decide) rfl

end TopoSlicer

